import Mathlib

/-!
Verification development for the stlib authentication core.

We give a shallow embedding of the relevant parts of the library:
the cryptographic primitives of `universe.py` (HMAC-SHA1 based guard
code derivation, RSA credential encryption, steam id conversions),
the login state machine of `login.py` (`Login.do_login`) and the
retrying request wrapper of `utils.py` (`Base.request`).  Bytes are
modelled as `List Nat` (each element < 256), python strings as
`List Char` or `String`, and machine words as `Nat` with explicit
reduction modulo `2 ^ 32`.
-/

namespace Stlib

/-! ## Byte and word primitives -/

/-- Truncation to a 32-bit word. -/
def w32 (n : Nat) : Nat := n % 4294967296

/-- Left rotation of a 32-bit word `x` by `k` bits (for `0 < k < 32`). -/
def rotl32 (k x : Nat) : Nat := (x * 2 ^ k) % 4294967296 + x / 2 ^ (32 - k)

/-- Big-endian byte encoding of `n` on `k` bytes (`int.to_bytes(k, 'big')`). -/
def beBytes : Nat → Nat → List Nat
  | 0, _ => []
  | k + 1, n => beBytes k (n / 256) ++ [n % 256]

/-- Big-endian interpretation of a byte list (`int.from_bytes(bs, 'big')`). -/
def bytesToNatBE (bs : List Nat) : Nat := bs.foldl (fun acc b => acc * 256 + b) 0

/-! ## SHA-1 (as used through python `hashlib.sha1` / `hmac`) -/

/-- SHA-1 round constants. -/
def sha1K (i : Nat) : Nat :=
  if i < 20 then 1518500249
  else if i < 40 then 1859775393
  else if i < 60 then 2400959708
  else 3395469782

/-- SHA-1 round functions; `b ^^^ 4294967295` is 32-bit complement. -/
def sha1F (i b c d : Nat) : Nat :=
  if i < 20 then (b &&& c) ||| ((b ^^^ 4294967295) &&& d)
  else if i < 40 then b ^^^ c ^^^ d
  else if i < 60 then (b &&& c) ||| (b &&& d) ||| (c &&& d)
  else b ^^^ c ^^^ d

/-- List lookup defaulting to 0. -/
def getW (l : List Nat) (i : Nat) : Nat := l.getD i 0

/-- Message-schedule extension on a reversed word list: the head is the most
recently produced word, so `w[i-3]` is at index 2, ..., `w[i-16]` at index 15. -/
def sha1Extend : Nat → List Nat → List Nat
  | 0, ws => ws
  | n + 1, ws =>
      sha1Extend n (rotl32 1 (getW ws 2 ^^^ getW ws 7 ^^^ getW ws 13 ^^^ getW ws 15) :: ws)

/-- The five SHA-1 working registers. -/
structure Sha1State where
  a : Nat
  b : Nat
  c : Nat
  d : Nat
  e : Nat
deriving DecidableEq

/-- One SHA-1 round. -/
def sha1Round (i w : Nat) (s : Sha1State) : Sha1State :=
  ⟨w32 (rotl32 5 s.a + sha1F i s.b s.c s.d + s.e + sha1K i + w),
   s.a, rotl32 30 s.b, s.c, s.d⟩

/-- Run the rounds over the word schedule starting at round index `i`. -/
def sha1Rounds : Nat → List Nat → Sha1State → Sha1State
  | _, [], s => s
  | i, w :: ws, s => sha1Rounds (i + 1) ws (sha1Round i w s)

/-- Read `n` big-endian 32-bit words from a byte list. -/
def bytesToWords : Nat → List Nat → List Nat
  | 0, _ => []
  | n + 1, bs =>
      (bs.getD 0 0 * 16777216 + bs.getD 1 0 * 65536 + bs.getD 2 0 * 256 + bs.getD 3 0)
        :: bytesToWords n (bs.drop 4)

/-- SHA-1 chaining values. -/
structure Sha1H where
  h0 : Nat
  h1 : Nat
  h2 : Nat
  h3 : Nat
  h4 : Nat
deriving DecidableEq

/-- SHA-1 initial chaining values. -/
def sha1Init : Sha1H := ⟨1732584193, 4023233417, 2562383102, 271733878, 3285377520⟩

/-- Compress one 64-byte block. -/
def sha1Block (h : Sha1H) (block : List Nat) : Sha1H :=
  let ws := (sha1Extend 64 (bytesToWords 16 block).reverse).reverse
  let s := sha1Rounds 0 ws ⟨h.h0, h.h1, h.h2, h.h3, h.h4⟩
  ⟨w32 (h.h0 + s.a), w32 (h.h1 + s.b), w32 (h.h2 + s.c), w32 (h.h3 + s.d), w32 (h.h4 + s.e)⟩

/-- Compress `n` successive 64-byte blocks. -/
def sha1Blocks : Nat → Sha1H → List Nat → Sha1H
  | 0, h, _ => h
  | n + 1, h, bs => sha1Blocks n (sha1Block h (bs.take 64)) (bs.drop 64)

/-- Merkle–Damgård padding: `0x80`, zeros, 8-byte big-endian bit length. -/
def sha1Pad (msg : List Nat) : List Nat :=
  msg ++ [128] ++ List.replicate ((64 - (msg.length + 9) % 64) % 64) 0
      ++ beBytes 8 (8 * msg.length)

/-- SHA-1 digest (20 bytes) of a byte list. -/
def sha1 (msg : List Nat) : List Nat :=
  let padded := sha1Pad msg
  let h := sha1Blocks (padded.length / 64) sha1Init padded
  beBytes 4 h.h0 ++ beBytes 4 h.h1 ++ beBytes 4 h.h2 ++ beBytes 4 h.h3 ++ beBytes 4 h.h4

/-- HMAC-SHA1 (`hmac.new(key, msg, hashlib.sha1).digest()`). -/
def hmacSha1 (key msg : List Nat) : List Nat :=
  let k0 := if 64 < key.length then sha1 key else key
  let kp := k0 ++ List.replicate (64 - k0.length) 0
  sha1 ((kp.map (fun b => b ^^^ 92)) ++ sha1 ((kp.map (fun b => b ^^^ 54)) ++ msg))

/-! ## Base64 (python `base64.b64decode` on well-formed input) -/

/-- Value of one character of the standard base64 alphabet. -/
def b64Val (c : Char) : Option Nat :=
  if 65 ≤ c.toNat ∧ c.toNat ≤ 90 then some (c.toNat - 65)
  else if 97 ≤ c.toNat ∧ c.toNat ≤ 122 then some (c.toNat - 71)
  else if 48 ≤ c.toNat ∧ c.toNat ≤ 57 then some (c.toNat + 4)
  else if c = '+' then some 62
  else if c = '/' then some 63
  else none

/-- Decode base64 groups of four characters; `=` padding only at the end. -/
def b64DecodeGroups : Nat → List Char → Option (List Nat)
  | _, [] => some []
  | 0, _ => none
  | f + 1, c0 :: c1 :: '=' :: '=' :: [] =>
      match b64Val c0, b64Val c1 with
      | some v0, some v1 =>
          let _ := f
          some [v0 * 4 + v1 / 16]
      | _, _ => none
  | _, c0 :: c1 :: c2 :: '=' :: [] =>
      match b64Val c0, b64Val c1, b64Val c2 with
      | some v0, some v1, some v2 =>
          some [v0 * 4 + v1 / 16, (v1 % 16) * 16 + v2 / 4]
      | _, _, _ => none
  | f + 1, c0 :: c1 :: c2 :: c3 :: rest =>
      match b64Val c0, b64Val c1, b64Val c2, b64Val c3 with
      | some v0, some v1, some v2, some v3 =>
          (b64DecodeGroups f rest).map
            (fun bs => (v0 * 4 + v1 / 16) :: ((v1 % 16) * 16 + v2 / 4) :: ((v2 % 4) * 64 + v3) :: bs)
      | _, _, _, _ => none
  | _, _ => none

/-- Base64 decoding of a python string into bytes; `none` models a raised
`binascii.Error` for malformed input. -/
def b64decode (s : List Char) : Option (List Nat) :=
  if s.length % 4 = 0 then b64DecodeGroups s.length s else none

/-! ## Guard code derivation (`universe.generate_otp_code`,
`universe.generate_steam_code`) -/

/-- The 26-symbol alphabet `__STEAM_ALPHABET` of `universe.py`. -/
def STEAM_ALPHABET : List Char :=
  ['2', '3', '4', '5', '6', '7', '8', '9', 'B', 'C', 'D', 'F', 'G', 'H', 'J', 'K',
   'M', 'N', 'P', 'Q', 'R', 'T', 'V', 'W', 'X', 'Y']

/-- `universe.generate_otp_code(msg, key)`: HMAC-SHA1 digest, dynamic
truncation at `digest[19] & 0xF`, 31-bit big-endian value. -/
def generate_otp_code (msg key : List Nat) : Nat :=
  let digest := hmacSha1 key msg
  let start := digest.getD 19 0 &&& 15
  bytesToNatBE ((digest.drop start).take 4) &&& 2147483647

/-- The base-26 digit loop of `generate_steam_code`: `n` times, emit
`__STEAM_ALPHABET[v % 26]` and divide `v` by 26. -/
def steamCodeChars : Nat → Nat → List Char
  | 0, _ => []
  | n + 1, v => STEAM_ALPHABET.getD (v % 26) ' ' :: steamCodeChars n (v / 26)

/-- `universe.generate_steam_code(server_time, shared_secret)`; `none` models
the `binascii.Error` raised on a malformed shared secret. -/
def generate_steam_code (server_time : Nat) (shared_secret : List Char) : Option (List Char) :=
  (b64decode shared_secret).map (fun key =>
    steamCodeChars 5 (generate_otp_code (beBytes 8 (server_time / 30)) key))

/-- The spec's alphabet string `"23456789BCDFGHJKMNPQRTVWXY"`. -/
def ALPHABET : List Char := "23456789BCDFGHJKMNPQRTVWXY".toList

/-- The spec's digit loop: `out.push(ALPHABET[value % 26]); value //= 26`. -/
def specGuardChars : Nat → Nat → List Char
  | 0, _ => []
  | n + 1, v => ALPHABET.getD (v % 26) ' ' :: specGuardChars n (v / 26)

/-- The spec's reference derivation `derive_guard_code(epochSeconds,
sharedSecret)`: `counter = floor(epochSeconds/30)`, `digest =
HMAC_SHA1(base64decode(sharedSecret), bigEndian8(counter))`, `offset =
digest[19] & 0xF`, `value = bigEndianU32(digest[offset..offset+4]) &
0x7FFFFFFF`, then five base-26 digits over `ALPHABET`. -/
def derive_guard_code (epochSeconds : Nat) (sharedSecret : List Char) : Option (List Char) :=
  (b64decode sharedSecret).map (fun key =>
    let counter := epochSeconds / 30
    let digest := hmacSha1 key (beBytes 8 counter)
    let offset := digest.getD 19 0 &&& 15
    let value := bytesToNatBE ((digest.drop offset).take 4) &&& 2147483647
    specGuardChars 5 value)

/-! ## Steam ids (`universe.SteamId`, `universe.generate_steamid`)

Python integers are modelled as `Int`.  The only floating-point operation in
this code is the true division `int((offset - type_) / 2)` whose exact
quotient is always an integer; python rounds that integer to the nearest
IEEE-754 double and `int` truncates, which we model by rounding to 53
significant bits with ties to even. -/

/-- `universe.SteamId` (a NamedTuple of two python ints). -/
structure SteamId where
  type : Int
  id : Int
deriving DecidableEq

/-- `SteamId.id_base()`. -/
def SteamId.id_base : Int := 76561197960265728

/-- `SteamId.id3`. -/
def SteamId.id3 (s : SteamId) : Int := (s.id + s.type) * 2 - s.type

/-- `SteamId.id64`. -/
def SteamId.id64 (s : SteamId) : Int := SteamId.id_base + s.id * 2 + s.type

/-- Decimal digit character. -/
def digitChar (d : Nat) : Char := Char.ofNat (48 + d)

/-- Decimal digits of `n`, most significant first, with fuel. -/
def toDecAux : Nat → Nat → List Char
  | 0, _ => []
  | f + 1, n => if n < 10 then [digitChar n] else toDecAux f (n / 10) ++ [digitChar (n % 10)]

/-- Decimal representation of a natural number. -/
def toDec (n : Nat) : List Char := toDecAux (n + 1) n

/-- Decimal representation of a python int (as in an f-string). -/
def intToChars (i : Int) : List Char :=
  if i < 0 then '-' :: toDec i.natAbs else toDec i.natAbs

/-- `SteamId.id_string`: `f"STEAM_0:{self.type}:{self.id}"`. -/
def SteamId.id_string (s : SteamId) : List Char :=
  "STEAM_0:".toList ++ intToChars s.type ++ [':'] ++ intToChars s.id

/-- Number of binary digits of `n` (0 for 0), with self-sufficient fuel. -/
def bitLenAux : Nat → Nat → Nat
  | 0, _ => 0
  | f + 1, n => if n = 0 then 0 else bitLenAux f (n / 2) + 1

/-- Number of binary digits of `n`. -/
def bitLen (n : Nat) : Nat := bitLenAux (n + 1) n

/-- Round a natural number to the nearest IEEE-754 double value (53-bit
significand, ties to even), the conversion python applies to large ints. -/
def roundDouble (n : Nat) : Nat :=
  if n < 9007199254740992 then n
  else
    let k := bitLen n - 53
    let q := n / 2 ^ k
    let r := n % 2 ^ k
    let half := 2 ^ (k - 1)
    if r < half then q * 2 ^ k
    else if half < r then (q + 1) * 2 ^ k
    else if q % 2 = 0 then q * 2 ^ k
    else (q + 1) * 2 ^ k

/-- `int(a / b)` in python when the exact quotient `q = a / b` is an integer:
true division yields the double nearest to `q` and `int` truncates, which is
the identity on integral doubles. -/
def pyIntOfExactDiv (q : Int) : Int :=
  if q < 0 then -(roundDouble q.natAbs : Int) else (roundDouble q.natAbs : Int)

/-- The `isinstance(steamid, int)` branch of `generate_steamid`. -/
def steamidFromInt (n : Int) : SteamId :=
  let offset := n - SteamId.id_base
  let t : Int := if offset % 2 = 0 then 0 else 1
  ⟨t, pyIntOfExactDiv ((offset - t) / 2)⟩

/-- Python `str.strip('[]')` character class. -/
def isBracket (c : Char) : Bool := c = '[' || c = ']'

/-- Python `steamid.strip('[]')`. -/
def pyStrip (s : List Char) : List Char :=
  ((s.dropWhile isBracket).reverse.dropWhile isBracket).reverse

/-- Python `str.split(sep)` for a one-character separator. -/
def splitOnChar (sep : Char) : List Char → List (List Char)
  | [] => [[]]
  | c :: cs =>
      if c = sep then [] :: splitOnChar sep cs
      else
        match splitOnChar sep cs with
        | [] => [[c]]
        | p :: ps => (c :: p) :: ps

/-- Parse a run of decimal digits, failing on any non-digit. -/
def parseNatDigits (acc : Nat) : List Char → Option Nat
  | [] => some acc
  | c :: cs => if c.isDigit then parseNatDigits (acc * 10 + (c.toNat - 48)) cs else none

/-- Python `int(s)` on a clean literal (optional sign, decimal digits). -/
def pyInt (s : List Char) : Option Int :=
  if s = [] then none
  else if s.headD ' ' = '-' then
    if s.tail = [] then none
    else (parseNatDigits 0 s.tail).map (fun n => -(n : Int))
  else (parseNatDigits 0 s).map (fun n => (n : Int))

/-- Python `str.isdigit()` (for ASCII content). -/
def pyIsDigit (s : List Char) : Bool := !s.isEmpty && s.all Char.isDigit

/-- Exceptions `generate_steamid` can raise. -/
inductive PyError where
  | valueError
  | indexError
deriving DecidableEq

/-- Result of `generate_steamid`. -/
inductive SteamIdResult where
  | ok (s : SteamId)
  | error (e : PyError)
deriving DecidableEq

/-- The argument of `generate_steamid` (`str | int`). -/
inductive SteamIdInput where
  | str (s : List Char)
  | int (n : Int)

/-- `universe.generate_steamid(steamid)`. -/
def generate_steamid : SteamIdInput → SteamIdResult
  | .int n => .ok (steamidFromInt n)
  | .str s =>
      let parts := splitOnChar ':' (pyStrip s)
      let p0 := parts.getD 0 []
      if p0.take 5 = "STEAM".toList then
        if parts.length ≤ 1 then .error .indexError
        else
          match pyInt (parts.getD 1 []) with
          | none => .error .valueError
          | some t =>
              if parts.length ≤ 2 then .error .indexError
              else
                match pyInt (parts.getD 2 []) with
                | none => .error .valueError
                | some i => .ok ⟨t, i⟩
      else
        match p0 with
        | [] => .error .indexError
        | c :: _ =>
            if c = 'U' then
              if parts.length ≤ 2 then .error .indexError
              else
                match pyInt (parts.getD 2 []) with
                | none => .error .valueError
                | some v =>
                    let t : Int := if v % 2 = 0 then 0 else 1
                    .ok ⟨t, pyIntOfExactDiv ((v - t) / 2)⟩
            else if pyIsDigit s && s.length = 17 then
              match pyInt s with
              | none => .error .valueError
              | some n => .ok (steamidFromInt n)
            else .error .valueError

/-! ## RSA credential encryption (`universe.encrypt_password`)

`encrypt_password` calls `rsa.encrypt`, which is EME-PKCS1-v1_5: the
message is padded to the key length as `00 02 || PS || 00 || msg` with `PS`
random nonzero bytes, the padded block is raised to the public exponent
modulo the modulus, and the result is emitted big-endian on the key length.
The random padding bytes are injected as an argument. -/

/-- UTF-8 encoding of one unicode code point. -/
def utf8EncodeChar (c : Nat) : List Nat :=
  if c < 128 then [c]
  else if c < 2048 then [192 + c / 64, 128 + c % 64]
  else if c < 65536 then [224 + c / 4096, 128 + (c / 64) % 64, 128 + c % 64]
  else [240 + c / 262144, 128 + (c / 4096) % 64, 128 + (c / 64) % 64, 128 + c % 64]

/-- `str.encode()`: UTF-8 bytes of a python string. -/
def utf8Encode (s : String) : List Nat :=
  (s.toList.map (fun c => utf8EncodeChar c.toNat)).flatten

/-- `rsa.common.byte_size`: bytes needed for the modulus. -/
def byteLength (n : Nat) : Nat := (bitLen n + 7) / 8

/-- `universe.SteamKey`, with the `rsa.PublicKey` split into modulus and
exponent. -/
structure SteamKey where
  n : Nat
  e : Nat
  timestamp : Nat

/-- Modular exponentiation. -/
def powMod (b : Nat) : Nat → Nat → Nat
  | 0, m => 1 % m
  | e + 1, m => (b % m) * powMod b e m % m

/-- `rsa.encrypt`: EME-PKCS1-v1_5 padding with the injected nonzero random
bytes `padding`, then modular exponentiation; `none` models the
`OverflowError` raised when the message does not fit the key. -/
def rsaEncrypt (key : SteamKey) (padding msg : List Nat) : Option (List Nat) :=
  let k := byteLength key.n
  if k < msg.length + 11 then none
  else some (beBytes k (powMod (bytesToNatBE (0 :: 2 :: padding ++ [0] ++ msg)) key.e key.n))

/-- The standard base64 alphabet. -/
def b64Char (v : Nat) : Char :=
  "ABCDEFGHIJKLMNOPQRSTUVWXYZabcdefghijklmnopqrstuvwxyz0123456789+/".toList.getD v ' '

/-- Base64-encode bytes in groups of three, with `=` padding. -/
def b64EncodeGroups : Nat → List Nat → List Char
  | 0, _ => []
  | _ + 1, [] => []
  | _ + 1, b0 :: [] => [b64Char (b0 / 4), b64Char (b0 % 4 * 16), '=', '=']
  | _ + 1, b0 :: b1 :: [] =>
      [b64Char (b0 / 4), b64Char (b0 % 4 * 16 + b1 / 16), b64Char (b1 % 16 * 4), '=']
  | f + 1, b0 :: b1 :: b2 :: rest =>
      b64Char (b0 / 4) :: b64Char (b0 % 4 * 16 + b1 / 16)
        :: b64Char (b1 % 16 * 4 + b2 / 64) :: b64Char (b2 % 64)
        :: b64EncodeGroups f rest

/-- `base64.b64encode`. -/
def b64encode (bs : List Nat) : List Char := b64EncodeGroups (bs.length + 1) bs

/-- `universe.encrypt_password(steam_key, password)`: RSA-encrypt the UTF-8
password with the key, base64-encode the ciphertext. -/
def encrypt_password (steam_key : SteamKey) (padding : List Nat) (password : String) :
    Option (List Char) :=
  (rsaEncrypt steam_key padding (utf8Encode password)).map b64encode

/-! ## The retrying request wrapper (`utils.Base.request`)

One call to `Base.request` is a `for try_count in range(4)` loop over network
attempts.  The outcome of each attempt is supplied by an oracle
`Nat → AttemptOutcome`; the model follows the source's control flow exactly,
including the fall-through retry on connector errors when `auto_recovery` is
false (the `except` block ends without re-raising) and the final
`return result` that raises `UnboundLocalError` when no attempt assigned
`result`. -/

/-- An HTTP response as far as the retry loop inspects it. -/
structure HttpResponse where
  status : Nat
  location : String
deriving DecidableEq

/-- What one attempt of the `aiohttp` request does. -/
inductive AttemptOutcome where
  | success (r : HttpResponse)
  | connectorError
  | responseError (status : Nat)
deriving DecidableEq

/-- How one call to `Base.request` ends: a returned response, the session
expiry `LoginError`, a re-raised `aiohttp.ClientResponseError`, or the
`UnboundLocalError` from `return result` with `result` never assigned.  Each
carries the number of attempts made and of 5-second sleeps performed. -/
inductive RequestResult where
  | response (r : HttpResponse) (attemptsMade sleeps : Nat)
  | loginError (attemptsMade sleeps : Nat)
  | raisedClientResponseError (status : Nat) (attemptsMade sleeps : Nat)
  | unboundLocalError (attemptsMade sleeps : Nat)
deriving DecidableEq

/-- Attempt count of a request result. -/
def RequestResult.attempts : RequestResult → Nat
  | .response _ a _ => a
  | .loginError a _ => a
  | .raisedClientResponseError _ a _ => a
  | .unboundLocalError a _ => a

/-- Whether `needle` is an initial segment of the second list. -/
def listStartsWith : List Char → List Char → Bool
  | [], _ => true
  | _ :: _, [] => false
  | c :: cs, d :: ds => c = d && listStartsWith cs ds

/-- Python's `needle in haystack` on strings (contiguous substring). -/
def containsSub (needle : List Char) : List Char → Bool
  | [] => needle.isEmpty
  | c :: cs => listStartsWith needle (c :: cs) || containsSub needle cs

/-- The `'login/home/?goto=' in location` check. -/
def isLoginRedirect (r : HttpResponse) : Bool :=
  containsSub "login/home/?goto=".toList r.location.toList

/-- The body of the `for try_count in range(4)` loop; `remaining` is the
number of loop iterations left and `try_count` the python loop variable. -/
def requestLoop (oracle : Nat → AttemptOutcome) (auto_recovery : Bool) :
    Nat → Nat → Nat → RequestResult
  | 0, try_count, slp => .unboundLocalError try_count slp
  | remaining + 1, try_count, slp =>
      match oracle try_count with
      | .success r =>
          if isLoginRedirect r then .loginError (try_count + 1) slp
          else .response r (try_count + 1) slp
      | .connectorError =>
          if auto_recovery then
            requestLoop oracle auto_recovery remaining (try_count + 1) (slp + 1)
          else
            requestLoop oracle auto_recovery remaining (try_count + 1) slp
      | .responseError status =>
          if 400 ≤ status ∧ status ≤ 499 then
            .raisedClientResponseError status (try_count + 1) slp
          else if auto_recovery ∧ try_count < 3 then
            requestLoop oracle auto_recovery remaining (try_count + 1) (slp + 1)
          else .raisedClientResponseError status (try_count + 1) slp

/-- `Base.request`: run the 4-iteration retry loop. -/
def request (oracle : Nat → AttemptOutcome) (auto_recovery : Bool) : RequestResult :=
  requestLoop oracle auto_recovery 4 0 0

/-! ## The login negotiation (`login.Login.do_login`)

The network is abstracted by a `LoginEnv` describing what each endpoint
answers; `doLogin` returns the outcome together with the ordered trace of
endpoint calls made. -/

/-- The `BeginAuthSessionViaCredentials` response fields `do_login` reads;
`has_steamid` is whether `'steamid' in json_data['response']`, and
`allowed_confirmations` lists each entry's `confirmation_type`. -/
structure BeginResponse where
  has_steamid : Bool
  steamid : Nat
  client_id : String
  request_id : String
  allowed_confirmations : List Nat
deriving DecidableEq

/-- One entry of the `finalizelogin` response's `transfer_info` list. -/
structure TransferItem where
  url : String
  nonce : String
  auth : String
deriving DecidableEq

/-- `login.TransferInfo`. -/
structure TransferInfo where
  url : String
  nonce : String
  auth : String
deriving DecidableEq

/-- `login.LoginData`. -/
structure LoginData where
  steamid : Nat
  client_id : String
  sessionid : String
  refresh_token : String
  access_token : String
  transfer_info : List TransferInfo
deriving DecidableEq

/-- The environment of one `do_login` call: what each endpoint would answer.
`sets_cookie url` is whether the transfer response at `url` carries the
`steamLoginSecure` cookie; `rand_hex` feeds `random.choices`. -/
structure LoginEnv where
  key_ok : Bool
  beginResp : BeginResponse
  server_time : Nat
  update_ok : Bool
  has_refresh_token : Bool
  refresh_token : String
  access_token : String
  transfer_items : List TransferItem
  sets_cookie : String → Bool
  rand_hex : Nat → Nat

/-- Exceptions raised by `do_login` and the `Login` accessors. -/
inductive LoginExc where
  | loginError (msg : String) (captcha : Bool)
  | mailCodeError (msg : String) (captcha : Bool)
  | twoFactorCodeError (msg : String) (captcha : Bool)
  | captchaError (msg : String)
  | valueError (msg : String)
  | attributeError (msg : String)
  | permissionError (msg : String)
  | indexError
  | binasciiError
deriving DecidableEq

instance {ε α : Type} [DecidableEq ε] [DecidableEq α] : DecidableEq (Except ε α) := fun x y =>
  match x, y with
  | .ok a, .ok b =>
      if h : a = b then .isTrue (congrArg Except.ok h)
      else .isFalse (fun hh => h (Except.ok.inj hh))
  | .error a, .error b =>
      if h : a = b then .isTrue (congrArg Except.error h)
      else .isFalse (fun hh => h (Except.error.inj hh))
  | .ok _, .error _ => .isFalse (fun hh => Except.noConfusion hh)
  | .error _, .ok _ => .isFalse (fun hh => Except.noConfusion hh)

/-- The network calls `do_login` can make, with the payload fields the
claims are about. -/
inductive SteamCall where
  | getPublicKey
  | beginAuth
  | getServerInfo
  | updateAuthSession (code : String) (code_type : Nat)
  | pollStatus
  | finalizeLogin (nonce sessionid : String)
  | transfer (url nonce auth : String) (steamid : Nat)
deriving DecidableEq

/-- The sixteen characters of `'0123456789abcdef'`. -/
def hexDigits : List Char := "0123456789abcdef".toList

/-- `''.join(random.choices('0123456789abcdef', k=24))` with the random
draws supplied by `rand`. -/
def genSessionId (rand : Nat → Nat) : String :=
  String.mk ((List.range 24).map (fun i => hexDigits.getD (rand i % 16) ' '))

/-- The `for item in json_data['transfer_info']` loop of `do_login`: call
each transfer url in order; a response without the `steamLoginSecure` cookie
raises `LoginError('Error setting login cookies')` at once, abandoning the
remaining items. -/
def transferLoop (env : LoginEnv) (steamid : Nat) :
    List TransferItem → Except LoginExc (List TransferInfo) × List SteamCall
  | [] => (.ok [], [])
  | item :: rest =>
      let call := SteamCall.transfer item.url item.nonce item.auth steamid
      if env.sets_cookie item.url then
        match transferLoop env steamid rest with
        | (.ok infos, calls) => (.ok (⟨item.url, item.nonce, item.auth⟩ :: infos), call :: calls)
        | (.error e, calls) => (.error e, call :: calls)
      else (.error (.loginError "Error setting login cookies" false), [call])

/-- `do_login` from `PollAuthSessionStatus` on: poll once, generate the
session id, call `finalizelogin`, then run the transfer loop. -/
def afterCode (env : LoginEnv) (client_id : String) (steamid : Nat)
    (priorCalls : List SteamCall) : Except LoginExc LoginData × List SteamCall :=
  let calls := priorCalls ++ [SteamCall.pollStatus]
  if env.has_refresh_token = false then
    (.error (.loginError "Tokens are not received. Try again." false), calls)
  else
    let sessionid := genSessionId env.rand_hex
    let calls := calls ++ [SteamCall.finalizeLogin env.refresh_token sessionid]
    match transferLoop env steamid env.transfer_items with
    | (.ok infos, tcalls) =>
        (.ok ⟨steamid, client_id, sessionid, env.refresh_token, env.access_token, infos⟩,
          calls ++ tcalls)
    | (.error e, tcalls) => (.error e, calls ++ tcalls)

/-- Confirmation resolution: with a shared secret, fetch the server time and
derive the guard code; otherwise use the supplied code (possibly empty). -/
def resolveCode (env : LoginEnv) (shared_secret auth_code : String) :
    Except LoginExc (String × List SteamCall) :=
  if shared_secret ≠ "" then
    match generate_steam_code env.server_time shared_secret.toList with
    | none => .error .binasciiError
    | some code => .ok (String.mk code, [SteamCall.getServerInfo])
  else .ok (auth_code, [])

/-- `Login.do_login(shared_secret, auth_code, auth_code_type, ...)`.  The
result is the outcome (`LoginData` or raised exception) paired with the
ordered list of network calls made. -/
def doLogin (env : LoginEnv) (password : Option String) (shared_secret auth_code : String)
    (auth_code_type : Nat) : Except LoginExc LoginData × List SteamCall :=
  if env.key_ok = false then
    (.error (.valueError "Failed to get public key."), [.getPublicKey])
  else if password.isNone then
    (.error (.attributeError "Password is required to login"), [.getPublicKey])
  else if env.beginResp.has_steamid = false then
    (.error (.loginError "Unable to log-in. Check your username and password." false),
      [.getPublicKey, .beginAuth])
  else
    match resolveCode env shared_secret auth_code with
    | .error e => (.error e, [.getPublicKey, .beginAuth, .getServerInfo])
    | .ok (code, extraCalls) =>
        let calls := [SteamCall.getPublicKey, SteamCall.beginAuth] ++ extraCalls
        if code ≠ "" then
          let calls := calls ++ [SteamCall.updateAuthSession code auth_code_type]
          if env.update_ok = false then
            (.error (.loginError "SteamGuard code is wrong" false), calls)
          else afterCode env env.beginResp.client_id env.beginResp.steamid calls
        else
          match env.beginResp.allowed_confirmations with
          | [] => (.error .indexError, calls)
          | ct :: rest =>
              let captcha := decide (0 < rest.length)
              if ct = 2 then
                (.error (.mailCodeError "Mail code requested" captcha), calls)
              else if ct = 3 then
                (.error (.twoFactorCodeError "Authenticator code requested" captcha), calls)
              else if ct = 6 then
                (.error (.captchaError "Captcha code requested"), calls)
              else afterCode env env.beginResp.client_id env.beginResp.steamid calls

/-- The attribute state of a `Login` object. -/
structure LoginState where
  username : Option String
  password : Option String
deriving DecidableEq

/-- The `password` property getter: unconditionally raises
`PermissionError('Passwords are protected')`. -/
def passwordGet (_st : LoginState) : Except LoginExc String :=
  .error (.permissionError "Passwords are protected")

/-- The `password` property setter: stores the value in the name-mangled
`__password` slot. -/
def passwordSet (st : LoginState) (p : String) : LoginState :=
  { st with password := some p }

/-! ## Theorems: C1 -/

lemma ALPHABET_eq_steam : ALPHABET = STEAM_ALPHABET := by decide

lemma specGuardChars_eq_steamCodeChars : ∀ n v, specGuardChars n v = steamCodeChars n v := by
  intro n
  induction n with
  | zero => intro v; rfl
  | succ n ih =>
      intro v
      simp [specGuardChars, steamCodeChars, ALPHABET_eq_steam, ih]

lemma steamCodeChars_length : ∀ n v, (steamCodeChars n v).length = n := by
  intro n
  induction n with
  | zero => intro v; rfl
  | succ n ih => intro v; simp [steamCodeChars, ih]

lemma steamAlphabet_getD_mem : ∀ i < 26, STEAM_ALPHABET.getD i ' ' ∈ STEAM_ALPHABET := by
  decide

lemma steamCodeChars_mem : ∀ n v, ∀ c ∈ steamCodeChars n v, c ∈ STEAM_ALPHABET := by
  intro n
  induction n with
  | zero => intro v c hc; simp [steamCodeChars] at hc
  | succ n ih =>
      intro v c hc
      simp only [steamCodeChars, List.mem_cons] at hc
      rcases hc with hc | hc
      · exact hc ▸ steamAlphabet_getD_mem (v % 26) (Nat.mod_lt _ (by norm_num))
      · exact ih (v / 26) c hc

set_option maxRecDepth 40000

/-- C1: for every epoch time `t` and every base64 shared secret `s` on which
decoding succeeds, `generate_steam_code t s` equals the spec's reference
derivation `derive_guard_code t s` (counter `t / 30`, 8-byte big-endian
message, HMAC-SHA1, dynamic truncation, 31-bit value, five base-26 digits over
`"23456789BCDFGHJKMNPQRTVWXY"`); every produced code is a 5-character string
over that alphabet; and the derivation succeeds on the example `t = 0`,
`s = "AAAAAAAA"`.  Both sides are pure Lean functions, hence deterministic. -/
theorem generate_steam_code_meets_spec :
    (∀ t s, generate_steam_code t s = derive_guard_code t s) ∧
    (∀ t s code, generate_steam_code t s = some code →
      code.length = 5 ∧ ∀ c ∈ code, c ∈ STEAM_ALPHABET) ∧
    (generate_steam_code 0 "AAAAAAAA".toList).isSome = true := by
  refine ⟨?eq, ?shape, by decide⟩
  case eq =>
    intro t s
    simp only [generate_steam_code, derive_guard_code, generate_otp_code,
      specGuardChars_eq_steamCodeChars]
  case shape =>
    intro t s code h
    cases hb : b64decode s with
    | none => simp [generate_steam_code, hb] at h
    | some key =>
        simp only [generate_steam_code, hb, Option.map_some] at h
        obtain rfl : steamCodeChars 5 (generate_otp_code (beBytes 8 (t / 30)) key) = code :=
          Option.some_injective _ h
        exact ⟨steamCodeChars_length 5 _, steamCodeChars_mem 5 _⟩

/-- Witness for C1 at the concrete input `t = 0`, `s = "AAAAAAAA"`. -/
theorem generate_steam_code_meets_spec_witness :
    generate_steam_code 0 "AAAAAAAA".toList = derive_guard_code 0 "AAAAAAAA".toList ∧
    (['R', 'Y', 'H', '4', 'D'].length = 5 ∧
      ∀ c ∈ ['R', 'Y', 'H', '4', 'D'], c ∈ STEAM_ALPHABET) := by
  refine ⟨generate_steam_code_meets_spec.1 0 "AAAAAAAA".toList,
    generate_steam_code_meets_spec.2.1 0 "AAAAAAAA".toList ['R', 'Y', 'H', '4', 'D'] ?h⟩
  decide

/-! ## Theorems: C9 -/

/-- The ten decimal digit characters. -/
def decDigits : List Char := ['0', '1', '2', '3', '4', '5', '6', '7', '8', '9']

lemma digitChar_mem : ∀ d < 10, digitChar d ∈ decDigits := by decide

lemma toDecAux_mem : ∀ f n c, c ∈ toDecAux f n → c ∈ decDigits := by
  intro f
  induction f with
  | zero => intro n c hc; simp [toDecAux] at hc
  | succ f ih =>
      intro n c hc
      by_cases h : n < 10
      · simp only [toDecAux, if_pos h, List.mem_singleton] at hc
        exact hc ▸ digitChar_mem n h
      · simp only [toDecAux, if_neg h, List.mem_append, List.mem_singleton] at hc
        rcases hc with hc | hc
        · exact ih (n / 10) c hc
        · exact hc ▸ digitChar_mem (n % 10) (Nat.mod_lt _ (by norm_num))

lemma toDecAux_ne_nil (f n : Nat) : toDecAux (f + 1) n ≠ [] := by
  by_cases h : n < 10 <;> simp [toDecAux, h]

lemma toDec_ne_nil (n : Nat) : toDec n ≠ [] := toDecAux_ne_nil n n

lemma toDec_mem (n : Nat) (c : Char) (hc : c ∈ toDec n) : c ∈ decDigits :=
  toDecAux_mem (n + 1) n c hc

lemma parseNatDigits_append (xs ys : List Char) :
    ∀ acc, parseNatDigits acc (xs ++ ys)
      = (parseNatDigits acc xs).bind (fun a => parseNatDigits a ys) := by
  induction xs with
  | nil => intro acc; simp [parseNatDigits]
  | cons c cs ih =>
      intro acc
      by_cases h : c.isDigit <;> simp [parseNatDigits, h, ih]

lemma digitChar_isDigit : ∀ d < 10, (digitChar d).isDigit = true := by decide

lemma digitChar_toNat : ∀ d < 10, (digitChar d).toNat - 48 = d := by decide

lemma parseNatDigits_toDecAux :
    ∀ f n acc, n < 10 ^ f →
      parseNatDigits acc (toDecAux f n) = some (acc * 10 ^ (toDecAux f n).length + n) := by
  intro f
  induction f with
  | zero =>
      intro n acc hn
      interval_cases n
      simp [toDecAux, parseNatDigits]
  | succ f ih =>
      intro n acc hn
      by_cases h : n < 10
      · simp [toDecAux, h, parseNatDigits, digitChar_isDigit n h, digitChar_toNat n h]
      · have hdiv : n / 10 < 10 ^ f := by
          rw [Nat.div_lt_iff_lt_mul (by norm_num)]
          calc n < 10 ^ (f + 1) := hn
          _ = 10 ^ f * 10 := by ring
        simp only [toDecAux, if_neg h, parseNatDigits_append, ih (n / 10) acc hdiv,
          Option.some_bind, parseNatDigits,
          digitChar_isDigit (n % 10) (Nat.mod_lt _ (by norm_num)),
          digitChar_toNat (n % 10) (Nat.mod_lt _ (by norm_num)), if_pos,
          List.length_append, List.length_singleton]
        rw [Option.some.injEq, pow_succ, ← Nat.mul_assoc]
        omega

lemma parseNatDigits_toDec (n : Nat) : parseNatDigits 0 (toDec n) = some n := by
  have h : n < 10 ^ (n + 1) :=
    lt_of_lt_of_le (Nat.lt_pow_self (by norm_num) n)
      (Nat.pow_le_pow_right (by norm_num) (Nat.le_succ n))
  rw [toDec, parseNatDigits_toDecAux (n + 1) n 0 h]
  simp

lemma pyInt_toDec (n : Nat) : pyInt (toDec n) = some (n : Int) := by
  have hne := toDec_ne_nil n
  have hhd : (toDec n).headD ' ' ∈ toDec n := by
    cases h : toDec n with
    | nil => exact absurd h hne
    | cons a t => simp
  have hdig := toDec_mem n _ hhd
  have hnotminus : ¬((toDec n).headD ' ' = '-') := by
    intro h
    rw [h] at hdig
    simp [decDigits] at hdig
  rw [pyInt, if_neg hne, if_neg hnotminus, parseNatDigits_toDec]
  rfl

lemma dropWhile_eq_self {p : Char → Bool} (l : List Char)
    (h : ∀ c ∈ l, p c = false) : l.dropWhile p = l := by
  cases l with
  | nil => rfl
  | cons a t => simp [List.dropWhile, h a (List.mem_cons_self a t)]

lemma pyStrip_eq_self (l : List Char) (h : ∀ c ∈ l, isBracket c = false) : pyStrip l = l := by
  rw [pyStrip, dropWhile_eq_self l h, dropWhile_eq_self, List.reverse_reverse]
  intro c hc
  exact h c (List.mem_reverse.mp hc)

lemma splitOnChar_no_sep (sep : Char) :
    ∀ l, (∀ c ∈ l, c ≠ sep) → splitOnChar sep l = [l] := by
  intro l
  induction l with
  | nil => intro h; rfl
  | cons c cs ih =>
      intro h
      have hc : c ≠ sep := h c (List.mem_cons_self c cs)
      have hcs := ih (fun x hx => h x (List.mem_cons_of_mem c hx))
      simp [splitOnChar, hc, hcs]

lemma splitOnChar_append (sep : Char) (a rest : List Char) (h : ∀ c ∈ a, c ≠ sep) :
    splitOnChar sep (a ++ sep :: rest) = a :: splitOnChar sep rest := by
  induction a with
  | nil => simp [splitOnChar]
  | cons c cs ih =>
      have hc : c ≠ sep := h c (List.mem_cons_self c cs)
      have hcs := ih (fun x hx => h x (List.mem_cons_of_mem c hx))
      simp only [List.cons_append, splitOnChar, if_neg hc, List.append_eq, hcs]

lemma roundDouble_small (n : Nat) (h : n < 9007199254740992) : roundDouble n = n := by
  simp [roundDouble, h]

lemma pyIntOfExactDiv_id (q : Int) (h0 : 0 ≤ q) (h1 : q < 9007199254740992) :
    pyIntOfExactDiv q = q := by
  rw [pyIntOfExactDiv, if_neg (by omega)]
  rw [roundDouble_small q.natAbs (by omega)]
  exact Int.natAbs_of_nonneg h0

lemma steamidFromInt_id64 (t id : Int) (ht : t = 0 ∨ t = 1) (h0 : 0 ≤ id)
    (h1 : id < 9007199254740992) :
    steamidFromInt (SteamId.mk t id).id64 = SteamId.mk t id := by
  have hbase : (SteamId.mk t id).id64 - SteamId.id_base = id * 2 + t := by
    simp only [SteamId.id64, SteamId.id_base]
    omega
  rcases ht with rfl | rfl
  · simp only [steamidFromInt, hbase]
    rw [if_pos (by omega)]
    have : (id * 2 + 0 - 0) / 2 = id := by omega
    rw [this, pyIntOfExactDiv_id id h0 h1]
  · simp only [steamidFromInt, hbase]
    rw [if_neg (by omega)]
    have : (id * 2 + 1 - 1) / 2 = id := by omega
    rw [this, pyIntOfExactDiv_id id h0 h1]

lemma decDigits_not_bracket : ∀ c ∈ decDigits, isBracket c = false := by decide

lemma decDigits_ne_colon : ∀ c ∈ decDigits, c ≠ ':' := by decide

lemma decDigits_isDigit : ∀ c ∈ decDigits, c.isDigit = true := by decide

lemma id_string_mk (t id : Int) :
    (SteamId.mk t id).id_string
      = "STEAM_0".toList ++ ':' :: (intToChars t ++ ':' :: intToChars id) := by
  simp only [SteamId.id_string]
  rw [show "STEAM_0:".toList = "STEAM_0".toList ++ [':'] from rfl]
  simp [List.append_assoc]

set_option maxHeartbeats 1000000

/-- C9 (amended): for account type in `{0, 1}` and non-negative account id,
`generate_steamid` inverts the `id_string` encoding; it also inverts the
`id64` encoding — given as an int or as its 17-digit decimal string —
provided the account id is below `2 ^ 53`, so that python's float true
division in the int branch is exact. -/
theorem generate_steamid_left_inverse (t id : Int) (ht : t = 0 ∨ t = 1) (h0 : 0 ≤ id) :
    generate_steamid (.str (SteamId.mk t id).id_string) = .ok (SteamId.mk t id) ∧
    (id < 9007199254740992 →
      generate_steamid (.int (SteamId.mk t id).id64) = .ok (SteamId.mk t id)) ∧
    (id < 9007199254740992 → (toDec ((SteamId.mk t id).id64).toNat).length = 17 →
      generate_steamid (.str (toDec ((SteamId.mk t id).id64).toNat)) = .ok (SteamId.mk t id)) := by
  have htt : intToChars t = toDec t.natAbs := if_neg (by omega)
  have hii : intToChars id = toDec id.natAbs := if_neg (by omega)
  have hdigt : ∀ c ∈ intToChars t, c ∈ decDigits := by
    rw [htt]; intro c hc; exact toDec_mem _ c hc
  have hdigid : ∀ c ∈ intToChars id, c ∈ decDigits := by
    rw [hii]; intro c hc; exact toDec_mem _ c hc
  have hpt : pyInt (intToChars t) = some t := by
    rw [htt, pyInt_toDec, Int.natAbs_of_nonneg (by omega)]
  have hpi : pyInt (intToChars id) = some id := by
    rw [hii, pyInt_toDec, Int.natAbs_of_nonneg h0]
  refine ⟨?strA, ?intB, ?strC⟩
  case strA =>
    have hST : ∀ c ∈ "STEAM_0".toList, isBracket c = false := by decide
    have hnb : ∀ c ∈ (SteamId.mk t id).id_string, isBracket c = false := by
      rw [id_string_mk]
      intro c hc
      simp only [List.mem_append, List.mem_cons] at hc
      rcases hc with hc | hc | hc
      · exact hST c hc
      · subst hc; decide
      · rcases hc with hc | hc | hc
        · exact decDigits_not_bracket c (hdigt c hc)
        · subst hc; decide
        · exact decDigits_not_bracket c (hdigid c hc)
    have hsplit : splitOnChar ':' (pyStrip (SteamId.mk t id).id_string)
        = ["STEAM_0".toList, intToChars t, intToChars id] := by
      rw [pyStrip_eq_self _ hnb, id_string_mk]
      rw [splitOnChar_append ':' "STEAM_0".toList _ (by decide)]
      rw [splitOnChar_append ':' (intToChars t) _
        (fun c hc => decDigits_ne_colon c (hdigt c hc))]
      rw [splitOnChar_no_sep ':' (intToChars id)
        (fun c hc => decDigits_ne_colon c (hdigid c hc))]
    simp only [generate_steamid, hsplit, List.getD_cons_zero, List.getD_cons_succ,
      List.length_cons, List.length_nil]
    rw [if_pos (by decide), if_neg (by norm_num), hpt]
    simp only [hpi]
    norm_num
  case intB =>
    intro h1
    show SteamIdResult.ok (steamidFromInt (SteamId.mk t id).id64) = _
    rw [steamidFromInt_id64 t id ht h0 h1]
  case strC =>
    intro h1 h17
    set m := ((SteamId.mk t id).id64).toNat with hm
    have hid64nn : 0 ≤ (SteamId.mk t id).id64 := by
      simp only [SteamId.id64, SteamId.id_base]; omega
    have hdig : ∀ c ∈ toDec m, c ∈ decDigits := fun c hc => toDec_mem m c hc
    have hnb : ∀ c ∈ toDec m, isBracket c = false :=
      fun c hc => decDigits_not_bracket c (hdig c hc)
    have hsplit : splitOnChar ':' (pyStrip (toDec m)) = [toDec m] := by
      rw [pyStrip_eq_self _ hnb,
        splitOnChar_no_sep ':' (toDec m) (fun c hc => decDigits_ne_colon c (hdig c hc))]
    have hne := toDec_ne_nil m
    obtain ⟨c, cs, hcons⟩ : ∃ c cs, toDec m = c :: cs := by
      cases h : toDec m with
      | nil => exact absurd h hne
      | cons a l => exact ⟨a, l, rfl⟩
    have hcmem : c ∈ decDigits := hdig c (by rw [hcons]; exact List.mem_cons_self c cs)
    have htake : ¬((toDec m).take 5 = "STEAM".toList) := by
      intro hEq
      have : 'S' ∈ (toDec m).take 5 := by rw [hEq]; decide
      have : 'S' ∈ toDec m := List.take_subset 5 (toDec m) this
      have : 'S' ∈ decDigits := hdig _ this
      simp [decDigits] at this
    have hcU : ¬(c = 'U') := by
      intro hEq
      rw [hEq] at hcmem
      simp [decDigits] at hcmem
    have hisdig : pyIsDigit (toDec m) = true := by
      rw [pyIsDigit, hcons]
      simp only [List.isEmpty_cons, Bool.not_false, Bool.true_and, List.all_eq_true]
      intro x hx
      exact decDigits_isDigit x (hdig x (by rw [hcons]; exact hx))
    have hparse : pyInt (toDec m) = some ((SteamId.mk t id).id64) := by
      rw [pyInt_toDec m, hm, Int.toNat_of_nonneg hid64nn]
    simp only [generate_steamid, hsplit, List.getD_cons_zero, List.getD_cons_succ]
    rw [if_neg htake]
    rw [hcons]
    simp only [if_neg hcU, hisdig, h17 ▸ (rfl : (17 : Nat) = 17)]
    rw [← hcons, hisdig]
    simp only [← hcons, h17, hparse]
    rw [if_pos (by simp)]
    rw [steamidFromInt_id64 t id ht h0 h1]

/-- Witness for C9 at the concrete account `t = 1`, `id = 76543`. -/
theorem generate_steamid_left_inverse_witness :
    generate_steamid (.str (SteamId.mk 1 76543).id_string) = .ok (SteamId.mk 1 76543) ∧
    generate_steamid (.int (SteamId.mk 1 76543).id64) = .ok (SteamId.mk 1 76543) ∧
    generate_steamid (.str (toDec ((SteamId.mk 1 76543).id64).toNat)) = .ok (SteamId.mk 1 76543) := by
  obtain ⟨a, b, c⟩ := generate_steamid_left_inverse 1 76543 (Or.inr rfl) (by norm_num)
  exact ⟨a, b (by norm_num), c (by norm_num) (by decide)⟩

/-- C9 counterexample: for account id `2 ^ 53 + 1` (type 0) the id64 round
trip fails — python's float division rounds the id to `2 ^ 53`, so the claim
as stated (every non-negative account id) is false. -/
theorem generate_steamid_id64_large_id_counterexample :
    (SteamId.mk 0 9007199254740993).id64 = 94575596469747714 ∧
    generate_steamid (.int 94575596469747714) = .ok (SteamId.mk 0 9007199254740992) ∧
    ¬(generate_steamid (.int ((SteamId.mk 0 9007199254740993).id64))
        = .ok (SteamId.mk 0 9007199254740993)) := by
  exact ⟨by decide, by decide, by decide⟩

/-! ## Theorems: C2, C6, C10 -/

/-- C6: when the begin-session response carries no `steamid`, `do_login`
raises `LoginError('Unable to log-in. Check your username and password.')`
immediately: the trace is exactly the key fetch and the begin call, so no
further network call and no retry happens, whatever the secret or code
arguments were. -/
theorem do_login_invalid_credentials (env : LoginEnv) (pw ss ac : String) (act : Nat)
    (hkey : env.key_ok = true) (hsid : env.beginResp.has_steamid = false) :
    doLogin env (some pw) ss ac act
      = (.error (.loginError "Unable to log-in. Check your username and password." false),
         [.getPublicKey, .beginAuth]) := by
  simp [doLogin, hkey, hsid]

/-- Witness for C6 at a concrete environment. -/
theorem do_login_invalid_credentials_witness :
    doLogin ⟨true, ⟨false, 0, "c", "r", []⟩, 0, true, true, "rt", "at", [],
        fun _ => true, fun _ => 0⟩ (some "hunter2") "" "" 3
      = (.error (.loginError "Unable to log-in. Check your username and password." false),
         [.getPublicKey, .beginAuth]) :=
  do_login_invalid_credentials _ "hunter2" "" "" 3 rfl rfl

/-- C2: with neither a shared secret nor an auth code, `do_login` inspects
`allowed_confirmations` after the begin call: a single entry of type 2
raises `MailCodeError` and a single entry of type 3 raises
`TwoFactorCodeError`, both with `captcha_requested = false`; with more than
one entry the error matching the first entry is raised with
`captcha_requested = true` (`CaptchaError` for type 6 always carries
`captcha_requested = true`).  In every case the trace is exactly the key
fetch and the begin call: no further network call, in particular no
`UpdateAuthSessionWithSteamGuardCode` call, is made. -/
theorem do_login_confirmation_requirements (env : LoginEnv) (pw : String) (act : Nat)
    (hkey : env.key_ok = true) (hsid : env.beginResp.has_steamid = true) :
    (env.beginResp.allowed_confirmations = [2] →
      doLogin env (some pw) "" "" act
        = (.error (.mailCodeError "Mail code requested" false),
           [.getPublicKey, .beginAuth])) ∧
    (env.beginResp.allowed_confirmations = [3] →
      doLogin env (some pw) "" "" act
        = (.error (.twoFactorCodeError "Authenticator code requested" false),
           [.getPublicKey, .beginAuth])) ∧
    (∀ ct r rs, env.beginResp.allowed_confirmations = ct :: r :: rs →
      (ct = 2 → doLogin env (some pw) "" "" act
        = (.error (.mailCodeError "Mail code requested" true),
           [.getPublicKey, .beginAuth])) ∧
      (ct = 3 → doLogin env (some pw) "" "" act
        = (.error (.twoFactorCodeError "Authenticator code requested" true),
           [.getPublicKey, .beginAuth])) ∧
      (ct = 6 → doLogin env (some pw) "" "" act
        = (.error (.captchaError "Captcha code requested"),
           [.getPublicKey, .beginAuth]))) := by
  refine ⟨?one2, ?one3, ?many⟩
  case one2 =>
    intro h
    simp [doLogin, resolveCode, hkey, hsid, h]
  case one3 =>
    intro h
    simp [doLogin, resolveCode, hkey, hsid, h]
  case many =>
    intro ct r rs h
    refine ⟨?m2, ?m3, ?m6⟩ <;> intro hct <;> subst hct <;>
      simp [doLogin, resolveCode, hkey, hsid, h]

/-- Witness for C2: a single `DeviceCode` entry and a two-entry list headed
by `Email`, at concrete environments. -/
theorem do_login_confirmation_requirements_witness :
    doLogin ⟨true, ⟨true, 42, "c", "r", [3]⟩, 0, true, true, "rt", "at", [],
        fun _ => true, fun _ => 0⟩ (some "pw") "" "" 3
      = (.error (.twoFactorCodeError "Authenticator code requested" false),
         [.getPublicKey, .beginAuth]) ∧
    doLogin ⟨true, ⟨true, 42, "c", "r", [2, 6]⟩, 0, true, true, "rt", "at", [],
        fun _ => true, fun _ => 0⟩ (some "pw") "" "" 3
      = (.error (.mailCodeError "Mail code requested" true),
         [.getPublicKey, .beginAuth]) :=
  ⟨(do_login_confirmation_requirements _ "pw" 3 rfl rfl).2.1 rfl,
   ((do_login_confirmation_requirements _ "pw" 3 rfl rfl).2.2 2 6 [] rfl).1 rfl⟩

/-- C10: the `password` property of `Login` is write-only: reading it raises
`PermissionError('Passwords are protected')` on any state, both before and
after the setter stored a value (and the setter does store the value). -/
theorem password_property_write_only (st : LoginState) (p : String) :
    passwordGet st = .error (.permissionError "Passwords are protected") ∧
    (passwordSet st p).password = some p ∧
    passwordGet (passwordSet st p)
      = .error (.permissionError "Passwords are protected") :=
  ⟨rfl, rfl, rfl⟩

/-! ## Theorems: C3 -/

lemma transferLoop_fail (env : LoginEnv) (sid : Nat) (pre : List TransferItem)
    (bad : TransferItem) (post : List TransferItem)
    (hpre : ∀ it ∈ pre, env.sets_cookie it.url = true)
    (hbad : env.sets_cookie bad.url = false) :
    transferLoop env sid (pre ++ bad :: post)
      = (.error (.loginError "Error setting login cookies" false),
         pre.map (fun it => SteamCall.transfer it.url it.nonce it.auth sid)
           ++ [SteamCall.transfer bad.url bad.nonce bad.auth sid]) := by
  induction pre with
  | nil => simp [transferLoop, hbad]
  | cons it pre ih =>
      have hit : env.sets_cookie it.url = true := hpre it (List.mem_cons_self it pre)
      have ihh := ih (fun x hx => hpre x (List.mem_cons_of_mem it hx))
      simp [transferLoop, hit, ihh]

/-- C3 counterexample: with two transfer domains where the first rejects the
session cookie, `do_login` raises the generic
`LoginError('Error setting login cookies')`, which names no domain, and the
second domain is never contacted — contradicting the claim that remaining
domains still proceed and that the failure names the failed domain. -/
theorem do_login_transfer_failure_counterexample :
    (doLogin ⟨true, ⟨true, 42, "c", "r", []⟩, 0, true, true, "rt", "at",
        [⟨"https://a.example", "n1", "a1"⟩, ⟨"https://b.example", "n2", "a2"⟩],
        fun u => decide (u = "https://b.example"), fun _ => 0⟩
        (some "pw") "" "CODE" 3).1
      = .error (.loginError "Error setting login cookies" false) ∧
    SteamCall.transfer "https://b.example" "n2" "a2" 42
      ∉ (doLogin ⟨true, ⟨true, 42, "c", "r", []⟩, 0, true, true, "rt", "at",
          [⟨"https://a.example", "n1", "a1"⟩, ⟨"https://b.example", "n2", "a2"⟩],
          fun u => decide (u = "https://b.example"), fun _ => 0⟩
          (some "pw") "" "CODE" 3).2 := by
  exact ⟨by decide, by decide⟩

/-- C3 (amended): when during the transfer phase the response of one domain
does not set the `steamLoginSecure` cookie, `do_login` raises
`LoginError('Error setting login cookies')` immediately: the error carries
no domain information, the trace ends at the failed domain's transfer call,
and the remaining domains are never contacted. -/
theorem do_login_transfer_cookie_failure (env : LoginEnv) (pw ac : String) (act : Nat)
    (pre : List TransferItem) (bad : TransferItem) (post : List TransferItem)
    (hkey : env.key_ok = true) (hsid : env.beginResp.has_steamid = true)
    (hac : ¬(ac = "")) (hupd : env.update_ok = true)
    (hrt : env.has_refresh_token = true)
    (hitems : env.transfer_items = pre ++ bad :: post)
    (hpre : ∀ it ∈ pre, env.sets_cookie it.url = true)
    (hbad : env.sets_cookie bad.url = false) :
    doLogin env (some pw) "" ac act
      = (.error (.loginError "Error setting login cookies" false),
         [.getPublicKey, .beginAuth, .updateAuthSession ac act, .pollStatus,
          .finalizeLogin env.refresh_token (genSessionId env.rand_hex)]
           ++ pre.map (fun it =>
                SteamCall.transfer it.url it.nonce it.auth env.beginResp.steamid)
           ++ [SteamCall.transfer bad.url bad.nonce bad.auth env.beginResp.steamid]) := by
  have hloop := transferLoop_fail env env.beginResp.steamid pre bad post hpre hbad
  simp [doLogin, resolveCode, afterCode, hkey, hsid, hac, hupd, hrt, hitems, hloop]

/-- Witness for C3's amended statement at a concrete environment with one
good and one bad transfer domain after the good one. -/
theorem do_login_transfer_cookie_failure_witness :
    doLogin ⟨true, ⟨true, 42, "c", "r", []⟩, 0, true, true, "rt", "at",
        [⟨"https://a.example", "n1", "a1"⟩, ⟨"https://b.example", "n2", "a2"⟩],
        fun u => decide (u = "https://a.example"), fun _ => 0⟩
        (some "pw") "" "CODE" 3
      = (.error (.loginError "Error setting login cookies" false),
         [.getPublicKey, .beginAuth, .updateAuthSession "CODE" 3, .pollStatus,
          .finalizeLogin "rt" (genSessionId (fun _ => 0)),
          .transfer "https://a.example" "n1" "a1" 42,
          .transfer "https://b.example" "n2" "a2" 42]) := by
  have h := do_login_transfer_cookie_failure
    ⟨true, ⟨true, 42, "c", "r", []⟩, 0, true, true, "rt", "at",
      [⟨"https://a.example", "n1", "a1"⟩, ⟨"https://b.example", "n2", "a2"⟩],
      fun u => decide (u = "https://a.example"), fun _ => 0⟩
    "pw" "CODE" 3 [⟨"https://a.example", "n1", "a1"⟩] ⟨"https://b.example", "n2", "a2"⟩ []
    rfl rfl (by decide) rfl rfl rfl (by decide) (by decide)
  simpa using h

/-! ## Theorems: C8 -/

lemma genSessionId_length (r : Nat → Nat) : (genSessionId r).length = 24 := by
  simp [genSessionId, String.length]

lemma hexDigits_getD_mem : ∀ k < 16, hexDigits.getD k ' ' ∈ hexDigits := by decide

lemma genSessionId_mem (r : Nat → Nat) :
    ∀ c ∈ (genSessionId r).toList, c ∈ hexDigits := by
  intro c hc
  simp only [genSessionId, String.toList, List.mem_map, List.mem_range] at hc
  obtain ⟨i, _, rfl⟩ := hc
  exact hexDigits_getD_mem _ (Nat.mod_lt _ (by norm_num))

lemma transferLoop_no_finalize (env : LoginEnv) (sid : Nat) :
    ∀ items n s, SteamCall.finalizeLogin n s ∉ (transferLoop env sid items).2 := by
  intro items
  induction items with
  | nil => intro n s; simp [transferLoop]
  | cons it rest ih =>
      intro n s
      by_cases h : env.sets_cookie it.url
      · rcases hr : transferLoop env sid rest with ⟨res, calls⟩
        have ihh : SteamCall.finalizeLogin n s ∉ calls := by
          have := ih n s
          rw [hr] at this
          exact this
        cases res <;> simp [transferLoop, h, hr] <;> exact ihh
      · simp [transferLoop, h]

lemma afterCode_ok (env : LoginEnv) (cid : String) (sid : Nat) (prior : List SteamCall)
    (ld : LoginData) (calls : List SteamCall)
    (h : afterCode env cid sid prior = (.ok ld, calls)) :
    ld.sessionid = genSessionId env.rand_hex ∧
    ld.refresh_token = env.refresh_token ∧
    calls = prior ++ [SteamCall.pollStatus,
        SteamCall.finalizeLogin env.refresh_token (genSessionId env.rand_hex)]
      ++ (transferLoop env sid env.transfer_items).2 := by
  by_cases hrt : env.has_refresh_token = false
  · simp [afterCode, hrt] at h
  · rcases htl : transferLoop env sid env.transfer_items with ⟨res, tcalls⟩
    cases res with
    | ok infos =>
        simp only [afterCode, hrt, htl, if_neg, Bool.false_eq_true, reduceIte] at h
        rw [Prod.mk.injEq] at h
        obtain ⟨hld, hcalls⟩ := h
        have hld2 := Except.ok.inj hld
        subst hld2
        subst hcalls
        simp
    | error e => simp [afterCode, hrt, htl] at h

lemma resolveCode_extra (env : LoginEnv) (ss ac code : String) (extra : List SteamCall)
    (h : resolveCode env ss ac = .ok (code, extra)) :
    extra = [] ∨ extra = [SteamCall.getServerInfo] := by
  by_cases hss : ss = ""
  · simp [resolveCode, hss] at h
    exact Or.inl h.2
  · rcases hg : generate_steam_code env.server_time ss.data with _ | c
    · simp [resolveCode, hss, String.toList, hg] at h
    · simp [resolveCode, hss, String.toList, hg] at h
      exact Or.inr h.2.symm

lemma doLogin_ok_prior (env : LoginEnv) (pw ss ac : String) (act : Nat)
    (ld : LoginData) (calls : List SteamCall)
    (h : doLogin env (some pw) ss ac act = (.ok ld, calls)) :
    ∃ prior, (∀ n s, SteamCall.finalizeLogin n s ∉ prior) ∧
      afterCode env env.beginResp.client_id env.beginResp.steamid prior
        = (.ok ld, calls) := by
  by_cases hkey : env.key_ok = false
  · simp [doLogin, hkey] at h
  · by_cases hsid : env.beginResp.has_steamid = false
    · simp [doLogin, hkey, hsid] at h
    · rcases hrc : resolveCode env ss ac with e | ⟨code, extra⟩
      · simp [doLogin, hkey, hsid, hrc] at h
      · have hex := resolveCode_extra env ss ac code extra hrc
        by_cases hcode : code = ""
        · rcases hac : env.beginResp.allowed_confirmations with _ | ⟨ct, rest⟩
          · simp [doLogin, hkey, hsid, hrc, hcode, hac] at h
          · by_cases h2 : ct = 2
            · simp [doLogin, hkey, hsid, hrc, hcode, hac, h2] at h
            · by_cases h3 : ct = 3
              · simp [doLogin, hkey, hsid, hrc, hcode, hac, h2, h3] at h
              · by_cases h6 : ct = 6
                · simp [doLogin, hkey, hsid, hrc, hcode, hac, h2, h3, h6] at h
                · refine ⟨[SteamCall.getPublicKey, SteamCall.beginAuth] ++ extra, ?nf, ?he⟩
                  case nf =>
                    intro n s
                    rcases hex with rfl | rfl <;> simp
                  case he =>
                    simp only [doLogin, hkey, hsid, hrc] at h
                    simpa [hcode, hac, h2, h3, h6] using h
        · by_cases hupd : env.update_ok = false
          · simp [doLogin, hkey, hsid, hrc, hcode, hupd] at h
          · refine ⟨[SteamCall.getPublicKey, SteamCall.beginAuth] ++ extra
              ++ [SteamCall.updateAuthSession code act], ?nf2, ?he2⟩
            case nf2 =>
              intro n s
              rcases hex with rfl | rfl <;> simp
            case he2 =>
              simp only [doLogin, hkey, hsid, hrc] at h
              simpa [hcode, hupd] using h

/-- C8: whenever `do_login` succeeds, the returned session id is a 24
character string over the lowercase hex alphabet, generated once during the
finalize phase: the `finalizelogin` call of the trace carries exactly the
returned session id (and the returned refresh token as nonce), and every
`finalizelogin` call in the trace carries that same session id. -/
theorem do_login_sessionid (env : LoginEnv) (pw ss ac : String) (act : Nat)
    (ld : LoginData) (calls : List SteamCall)
    (h : doLogin env (some pw) ss ac act = (.ok ld, calls)) :
    ld.sessionid.length = 24 ∧
    (∀ c ∈ ld.sessionid.toList, c ∈ hexDigits) ∧
    SteamCall.finalizeLogin ld.refresh_token ld.sessionid ∈ calls ∧
    (∀ n s, SteamCall.finalizeLogin n s ∈ calls →
      s = ld.sessionid ∧ n = ld.refresh_token) := by
  obtain ⟨prior, hnf, hafter⟩ := doLogin_ok_prior env pw ss ac act ld calls h
  obtain ⟨hsid, hrt, hcalls⟩ :=
    afterCode_ok env env.beginResp.client_id env.beginResp.steamid prior ld calls hafter
  refine ⟨hsid ▸ genSessionId_length env.rand_hex,
    hsid ▸ genSessionId_mem env.rand_hex, ?mem, ?uniq⟩
  case mem =>
    rw [hcalls, hsid, hrt]
    simp
  case uniq =>
    intro n s hmem
    rw [hcalls] at hmem
    rcases List.mem_append.mp hmem with hm | hm
    · rcases List.mem_append.mp hm with hm2 | hm2
      · exact absurd hm2 (hnf n s)
      · simp only [List.mem_cons, List.not_mem_nil, or_false] at hm2
        rcases hm2 with hm3 | hm3
        · exact absurd hm3 (by simp)
        · obtain ⟨rfl, rfl⟩ := SteamCall.finalizeLogin.inj hm3
          exact ⟨hsid.symm, hrt.symm⟩
    · exact absurd hm (transferLoop_no_finalize env env.beginResp.steamid
        env.transfer_items n s)

/-- Witness for C8 at a concrete successful negotiation. -/
theorem do_login_sessionid_witness :
    (LoginData.mk 42 "cid" "000000000000000000000000" "rt" "at"
        [⟨"u1", "n1", "a1"⟩]).sessionid.length = 24 ∧
    (∀ c ∈ (LoginData.mk 42 "cid" "000000000000000000000000" "rt" "at"
        [⟨"u1", "n1", "a1"⟩]).sessionid.toList, c ∈ hexDigits) ∧
    SteamCall.finalizeLogin
        (LoginData.mk 42 "cid" "000000000000000000000000" "rt" "at"
          [⟨"u1", "n1", "a1"⟩]).refresh_token
        (LoginData.mk 42 "cid" "000000000000000000000000" "rt" "at"
          [⟨"u1", "n1", "a1"⟩]).sessionid
      ∈ [SteamCall.getPublicKey, SteamCall.beginAuth,
         SteamCall.updateAuthSession "CODE" 3, SteamCall.pollStatus,
         SteamCall.finalizeLogin "rt" "000000000000000000000000",
         SteamCall.transfer "u1" "n1" "a1" 42] ∧
    (∀ n s, SteamCall.finalizeLogin n s
        ∈ [SteamCall.getPublicKey, SteamCall.beginAuth,
           SteamCall.updateAuthSession "CODE" 3, SteamCall.pollStatus,
           SteamCall.finalizeLogin "rt" "000000000000000000000000",
           SteamCall.transfer "u1" "n1" "a1" 42] →
      s = (LoginData.mk 42 "cid" "000000000000000000000000" "rt" "at"
            [⟨"u1", "n1", "a1"⟩]).sessionid ∧
      n = (LoginData.mk 42 "cid" "000000000000000000000000" "rt" "at"
            [⟨"u1", "n1", "a1"⟩]).refresh_token) :=
  do_login_sessionid
    ⟨true, ⟨true, 42, "cid", "rid", []⟩, 0, true, true, "rt", "at",
      [⟨"u1", "n1", "a1"⟩], fun _ => true, fun _ => 0⟩
    "pw" "" "CODE" 3
    (LoginData.mk 42 "cid" "000000000000000000000000" "rt" "at" [⟨"u1", "n1", "a1"⟩])
    [SteamCall.getPublicKey, SteamCall.beginAuth, SteamCall.updateAuthSession "CODE" 3,
     SteamCall.pollStatus, SteamCall.finalizeLogin "rt" "000000000000000000000000",
     SteamCall.transfer "u1" "n1" "a1" 42]
    (by decide)

/-! ## Theorems: C4, C5 -/

lemma requestLoop_attempts_le (oracle : Nat → AttemptOutcome) (auto : Bool) :
    ∀ fuel tc slp, (requestLoop oracle auto fuel tc slp).attempts ≤ tc + fuel := by
  intro fuel
  induction fuel with
  | zero => intro tc slp; simp [requestLoop, RequestResult.attempts]
  | succ fuel ih =>
      intro tc slp
      have h1 := ih (tc + 1) (slp + 1)
      have h2 := ih (tc + 1) slp
      simp only [RequestResult.attempts] at h1 h2
      rcases ho : oracle tc with r | _ | status <;>
        simp only [requestLoop, ho] <;> split_ifs <;>
        simp only [RequestResult.attempts] <;> omega

/-- C4: a call to `Base.request` makes at most 4 attempts; a
`ClientResponseError` with a 4xx status on the first attempt is re-raised at
once — one attempt, no sleep, no retry; a 5xx response error is retried with
a 5-second sleep each time until the 4-attempt budget is exhausted and is
then propagated (4 attempts, 3 sleeps). -/
theorem request_retry_policy :
    (∀ (oracle : Nat → AttemptOutcome) (auto : Bool),
      (request oracle auto).attempts ≤ 4) ∧
    (∀ (oracle : Nat → AttemptOutcome) (auto : Bool) (st : Nat),
      400 ≤ st → st ≤ 499 → oracle 0 = .responseError st →
      request oracle auto = .raisedClientResponseError st 1 0) ∧
    (∀ (oracle : Nat → AttemptOutcome) (st : Nat),
      500 ≤ st → (∀ i < 4, oracle i = .responseError st) →
      request oracle true = .raisedClientResponseError st 4 3) := by
  refine ⟨?bound, ?immediate, ?exhaust⟩
  case bound =>
    intro oracle auto
    simpa using requestLoop_attempts_le oracle auto 4 0 0
  case immediate =>
    intro oracle auto st h4 h9 h0
    have hc : (400 ≤ st ∧ st ≤ 499) := ⟨h4, h9⟩
    simp [request, requestLoop, h0, hc]
  case exhaust =>
    intro oracle st h5 ho
    have h0 := ho 0 (by norm_num)
    have h1 := ho 1 (by norm_num)
    have h2 := ho 2 (by norm_num)
    have h3 := ho 3 (by norm_num)
    have hnot : ¬(400 ≤ st ∧ st ≤ 499) := by omega
    simp [request, requestLoop, h0, h1, h2, h3, hnot]

/-- Witness for C4 at concrete oracles: all-connector-failures for the
bound, a 404 on the first attempt, and a persistent 503. -/
theorem request_retry_policy_witness :
    (request (fun _ => .connectorError) true).attempts ≤ 4 ∧
    request (fun _ => .responseError 404) true = .raisedClientResponseError 404 1 0 ∧
    request (fun _ => .responseError 503) true = .raisedClientResponseError 503 4 3 :=
  ⟨request_retry_policy.1 (fun _ => .connectorError) true,
   request_retry_policy.2.1 (fun _ => .responseError 404) true 404
     (by norm_num) (by norm_num) rfl,
   request_retry_policy.2.2 (fun _ => .responseError 503) 503
     (by norm_num) (fun i _ => rfl)⟩

/-- C5: connector-level failures are retried internally up to the 4-attempt
budget, and if a later attempt succeeds no error reaches the caller; but
when all 4 attempts fail with connector errors the loop falls through to
`return result` with `result` never assigned, so an `UnboundLocalError` is
raised rather than the underlying transport error. -/
theorem request_connector_retry_behavior :
    (∀ (oracle : Nat → AttemptOutcome) (r : HttpResponse) (k : Nat),
      k < 4 → (∀ i < k, oracle i = .connectorError) → oracle k = .success r →
      isLoginRedirect r = false →
      request oracle true = .response r (k + 1) k) ∧
    request (fun _ => .connectorError) true = .unboundLocalError 4 4 := by
  refine ⟨?recover, rfl⟩
  intro oracle r k hk hpre hk2 hred
  interval_cases k
  · simp [request, requestLoop, hk2, hred]
  · simp [request, requestLoop, hpre 0 (by norm_num), hk2, hred]
  · simp [request, requestLoop, hpre 0 (by norm_num), hpre 1 (by norm_num), hk2, hred]
  · simp [request, requestLoop, hpre 0 (by norm_num), hpre 1 (by norm_num),
      hpre 2 (by norm_num), hk2, hred]

/-- Witness for C5: one connector failure then a successful response. -/
theorem request_connector_retry_behavior_witness :
    request (fun i => if i = 0 then .connectorError else .success ⟨200, ""⟩) true
      = .response ⟨200, ""⟩ 2 1 :=
  request_connector_retry_behavior.1
    (fun i => if i = 0 then .connectorError else .success ⟨200, ""⟩)
    ⟨200, ""⟩ 1 (by norm_num) (by decide) rfl rfl

/-! ## Theorems: C7 -/

lemma beBytes_length : ∀ k n, (beBytes k n).length = k := by
  intro k
  induction k with
  | zero => intro n; rfl
  | succ k ih => intro n; simp [beBytes, ih]

lemma bytesToNatBE_append_one (xs : List Nat) (b : Nat) :
    bytesToNatBE (xs ++ [b]) = bytesToNatBE xs * 256 + b := by
  rw [bytesToNatBE, bytesToNatBE, List.foldl_append]
  rfl

lemma bytesToNatBE_beBytes : ∀ k v, v < 256 ^ k → bytesToNatBE (beBytes k v) = v := by
  intro k
  induction k with
  | zero =>
      intro v hv
      interval_cases v
      rfl
  | succ k ih =>
      intro v hv
      have hdiv : v / 256 < 256 ^ k := by
        rw [Nat.div_lt_iff_lt_mul (by norm_num)]
        calc v < 256 ^ (k + 1) := hv
        _ = 256 ^ k * 256 := by ring
      rw [beBytes, bytesToNatBE_append_one, ih (v / 256) hdiv]
      omega

lemma bitLenAux_bound : ∀ f n, n ≤ f → n < 2 ^ bitLenAux f n := by
  intro f
  induction f with
  | zero =>
      intro n hn
      interval_cases n
      simp [bitLenAux]
  | succ f ih =>
      intro n hn
      by_cases h0 : n = 0
      · simp [bitLenAux, h0]
      · have ih2 := ih (n / 2) (by omega)
        rw [bitLenAux, if_neg h0, pow_succ]
        omega

lemma lt_pow_byteLength (n : Nat) : n < 256 ^ byteLength n := by
  have h1 : n < 2 ^ bitLen n := bitLenAux_bound (n + 1) n (by omega)
  have h2 : bitLen n ≤ 8 * byteLength n := by
    rw [byteLength]
    omega
  calc n < 2 ^ bitLen n := h1
  _ ≤ 2 ^ (8 * byteLength n) := Nat.pow_le_pow_right (by norm_num) h2
  _ = 256 ^ byteLength n := by
      rw [show (256 : Nat) = 2 ^ 8 from by norm_num, ← pow_mul]

lemma powMod_lt (b e n : Nat) (h : 0 < n) : powMod b e n < n := by
  cases e with
  | zero => exact Nat.mod_lt _ h
  | succ e => exact Nat.mod_lt _ h

/-- C7 (amended): `encrypt_password` RSA-encrypts the UTF-8 secret with the
key's modulus and exponent — the ciphertext is the key-length big-endian
encoding of `m ^ e mod n` for the PKCS#1-v1.5-padded message `m` — and
returns its base64 encoding.  It does not fail on the empty secret: whenever
the message fits the key (`len + 11 ≤ keyBytes`), and in particular for the
empty string, it returns a ciphertext. -/
theorem encrypt_password_spec (key : SteamKey) (padding : List Nat) (secret : String)
    (hfit : (utf8Encode secret).length + 11 ≤ byteLength key.n) :
    (∃ cbytes,
      rsaEncrypt key padding (utf8Encode secret) = some cbytes ∧
      encrypt_password key padding secret = some (b64encode cbytes) ∧
      cbytes.length = byteLength key.n ∧
      bytesToNatBE cbytes
        = powMod (bytesToNatBE (0 :: 2 :: padding ++ [0] ++ utf8Encode secret))
            key.e key.n) ∧
    (encrypt_password key padding "").isSome = true := by
  have hk : 11 ≤ byteLength key.n := le_trans (by omega) hfit
  have hn : 0 < key.n := by
    rcases Nat.eq_zero_or_pos key.n with h0 | h0
    · rw [h0] at hk
      simp [byteLength, bitLen, bitLenAux] at hk
    · exact h0
  have henc : rsaEncrypt key padding (utf8Encode secret)
      = some (beBytes (byteLength key.n)
          (powMod (bytesToNatBE (0 :: 2 :: padding ++ [0] ++ utf8Encode secret))
            key.e key.n)) := by
    rw [rsaEncrypt, if_neg (by omega)]
  refine ⟨⟨_, henc, ?benc, beBytes_length _ _, ?bval⟩, ?empty⟩
  case benc =>
    rw [encrypt_password, henc]
    rfl
  case bval =>
    exact bytesToNatBE_beBytes _ _
      (lt_trans (powMod_lt _ _ _ hn) (lt_pow_byteLength key.n))
  case empty =>
    have h2 : rsaEncrypt key padding (utf8Encode "") = some (beBytes (byteLength key.n)
        (powMod (bytesToNatBE (0 :: 2 :: padding ++ [0] ++ utf8Encode ""))
          key.e key.n)) := by
      rw [rsaEncrypt, if_neg (by simp [utf8Encode]; omega)]
    rw [encrypt_password, h2]
    rfl

/-- Witness for C7's amended statement at a 15-byte modulus and the secret
`"0000"`. -/
theorem encrypt_password_spec_witness :
    (∃ cbytes,
      rsaEncrypt ⟨664613997892457936451903530140172288, 3, 0⟩ [1, 2, 3, 4, 5, 6, 7, 8]
          (utf8Encode "0000") = some cbytes ∧
      encrypt_password ⟨664613997892457936451903530140172288, 3, 0⟩ [1, 2, 3, 4, 5, 6, 7, 8]
          "0000" = some (b64encode cbytes) ∧
      cbytes.length = byteLength 664613997892457936451903530140172288 ∧
      bytesToNatBE cbytes
        = powMod (bytesToNatBE (0 :: 2 :: [1, 2, 3, 4, 5, 6, 7, 8] ++ [0]
            ++ utf8Encode "0000")) 3 664613997892457936451903530140172288) ∧
    (encrypt_password ⟨664613997892457936451903530140172288, 3, 0⟩ [1, 2, 3, 4, 5, 6, 7, 8]
        "").isSome = true :=
  encrypt_password_spec ⟨664613997892457936451903530140172288, 3, 0⟩
    [1, 2, 3, 4, 5, 6, 7, 8] "0000" (by decide)

/-- C7 counterexample: with an 11-byte modulus, `encrypt_password` of the
empty secret succeeds — it returns a base64 ciphertext instead of failing
(the code base defines no `EncryptionError` anywhere). -/
theorem encrypt_password_empty_secret_counterexample :
    encrypt_password ⟨154742504910672534362390528, 3, 0⟩ [1, 2, 3, 4, 5, 6, 7, 8] ""
      = some "ZmsDbwAdQgAAAAA=".toList := by
  decide

end Stlib
